import Mathlib

/- Verification of the NHL-Dashboard ETL pipeline (src/etl/run_pipeline.py):
   a shallow embedding of the identifier canonicalizer (canon_team, decode_lineid),
   the line-combination resolver (build_lines_ready), the rolling-window gold SQL
   builder (build_gold_sql), and the regular-season filter
   (rs_predicate_mask_from_df / standardize_columns), together with theorems
   checking the specified properties.

   Conventions of the embedding:
   - pandas NA / Python None is modelled as `Option.none`; SQL NULL results are
     modelled as `Option.none`.
   - float statistics are modelled as rationals (ℚ); NaN produced by a guarded
     branch (np.where(..., np.nan)) is modelled as `none`.
   - Python strings are Lean `String`s; `str.upper()` is modelled on the ASCII
     range (the team codes and ids handled by the pipeline are ASCII).
   - a DuckDB window partition is modelled as the list of its rows already in
     (gamedate, gameid) order, as produced by the ORDER BY of the base CTE. -/

namespace NHLPipeline

/-! ### Python string primitives -/

/-- Whitespace characters removed by Python `str.strip()` (ASCII subset). -/
def isPySpace (c : Char) : Bool :=
  c = ' ' || c = '\t' || c = '\n' || c = '\r' || c = '\x0b' || c = '\x0c'

/-- Python `str.strip()` on a char list: drop leading and trailing whitespace. -/
def pyStrip (l : List Char) : List Char :=
  ((l.dropWhile isPySpace).reverse.dropWhile isPySpace).reverse

/-- The ASCII lower-to-upper table realizing Python `str.upper()` on the
characters the pipeline handles. -/
def upperTable : List (Char × Char) :=
  [('a', 'A'), ('b', 'B'), ('c', 'C'), ('d', 'D'), ('e', 'E'), ('f', 'F'),
   ('g', 'G'), ('h', 'H'), ('i', 'I'), ('j', 'J'), ('k', 'K'), ('l', 'L'),
   ('m', 'M'), ('n', 'N'), ('o', 'O'), ('p', 'P'), ('q', 'Q'), ('r', 'R'),
   ('s', 'S'), ('t', 'T'), ('u', 'U'), ('v', 'V'), ('w', 'W'), ('x', 'X'),
   ('y', 'Y'), ('z', 'Z')]

/-- Uppercase one character (ASCII model of Python `str.upper`). -/
def pyUpperChar (c : Char) : Char :=
  (upperTable.lookup c).getD c

/-- The ASCII upper-to-lower table realizing Python `str.lower()`. -/
def lowerTable : List (Char × Char) := upperTable.map (fun p => (p.2, p.1))

/-- Lowercase one character (ASCII model of Python `str.lower`). -/
def pyLowerChar (c : Char) : Char :=
  (lowerTable.lookup c).getD c

/-- Python `str.lower()`. -/
def pyLower (s : String) : String :=
  String.mk (s.toList.map pyLowerChar)

/-- Python `str.zfill(width)`: left-pad with zeros to `width`, keeping a leading
sign character in front of the padding. -/
def pyZfill (s : String) (width : Nat) : String :=
  if width ≤ s.length then s
  else
    match s.toList with
    | c :: rest =>
      if c = '+' ∨ c = '-' then
        String.mk (c :: (List.replicate (width - s.length) '0' ++ rest))
      else
        String.mk (List.replicate (width - s.length) '0' ++ (c :: rest))
    | [] => String.mk (List.replicate width '0')

/-- Python `"-".join(l)`. -/
def dashJoin : List String → String
  | [] => ""
  | [x] => x
  | x :: y :: xs => x ++ "-" ++ dashJoin (y :: xs)

/-! ### Identifier canonicalizer: TEAM_MAP / canon_team
(run_pipeline.py lines 322-333) -/

/-- The static alias table `TEAM_MAP`. -/
def TEAM_MAP : List (String × String) :=
  [("T.B", "TBL"), ("TB", "TBL"), ("TBL", "TBL"),
   ("L.A", "LAK"), ("LA", "LAK"), ("LAK", "LAK"),
   ("N.J", "NJD"), ("NJ", "NJD"), ("NJD", "NJD"),
   ("S.J", "SJS"), ("SJ", "SJS"), ("SJS", "SJS"),
   ("PHX", "ARI")]

/-- The normalization inside `canon_team`:
`str(x).strip().upper().replace(".", "").replace(" ", "")`. -/
def canonNorm (s : String) : String :=
  String.mk
    ((((pyStrip s.toList).map pyUpperChar).filter (fun c => c != '.')).filter
      (fun c => c != ' '))

/-- `canon_team`: NA passes through unchanged; otherwise normalize and look the
result up in `TEAM_MAP`, defaulting to the normalized string itself
(`TEAM_MAP.get(s, s)`). -/
def canon_team (x : Option String) : Option String :=
  match x with
  | none => none
  | some s => some ((TEAM_MAP.lookup (canonNorm s)).getD (canonNorm s))

/-! ### decode_lineid (run_pipeline.py lines 760-770) -/

/-- Python `str.replace(".0", "")`: remove every non-overlapping occurrence of
the two-character pattern, scanning left to right. -/
def stripDot0 : List Char → List Char
  | [] => []
  | '.' :: '0' :: rest => stripDot0 rest
  | c :: rest => c :: stripDot0 rest

/-- Left-to-right non-overlapping scan for the regex `(8\d{6})`: at each
position, a match is the character '8' followed by six decimal digits; after a
match the scan resumes past it (`skip` counts characters still to consume from
the current match). -/
def findIdsAux : Nat → List Char → List String
  | _, [] => []
  | skip + 1, _ :: rest => findIdsAux skip rest
  | 0, c :: rest =>
    if c = '8' ∧ (rest.take 6).length = 6 ∧ (rest.take 6).all Char.isDigit then
      String.mk (c :: rest.take 6) :: findIdsAux 6 rest
    else
      findIdsAux 0 rest

/-- `_id_pat.findall(s)` for `_id_pat = re.compile(r"(8\d{6})")`. -/
def findIds (l : List Char) : List String :=
  findIdsAux 0 l

/-- Order-preserving de-duplication (`if x not in out: out.append(x)`). -/
def pyDedupAux (seen : List String) : List String → List String
  | [] => []
  | x :: xs =>
    if x ∈ seen then pyDedupAux seen xs else x :: pyDedupAux (x :: seen) xs

/-- First-occurrence de-duplication used by `decode_lineid`. -/
def pyDedup (l : List String) : List String :=
  pyDedupAux [] l

/-- `decode_lineid`: NA yields []; otherwise strip ".0", find all `8\d{6}`
matches, de-duplicate preserving order, and truncate to 3. -/
def decode_lineid (lineid : Option String) : List String :=
  match lineid with
  | none => []
  | some s => (pyDedup (findIds (stripDot0 s.toList))).take 3

/-! ### Line-combination resolver (build_lines_ready, lines 840-914) -/

/-- `combo_size_label`: 2 when the declared position lower-cases to "pair",
3 otherwise (line 845). -/
def combo_size_label (pos : String) : Nat :=
  if pyLower pos == "pair" then 2 else 3

/-- `ids_n`: number of member ids decoded from the composite lineid (line 848). -/
def ids_n (lid : Option String) : Nat :=
  (decode_lineid lid).length

/-- `combo_size_final` as a function of the decoded count and the declared
position: `combo_size_decoded = ids_n.clip(0, 3)`, then the decoded size when
it is 2 or 3, otherwise the label size (lines 854-855). -/
def combo_size_final_of (n : Nat) (pos : String) : Nat :=
  let d := min n 3
  if d = 2 ∨ d = 3 then d else combo_size_label pos

/-- `combo_size_final` of a row (lines 854-855). -/
def combo_size_final (lid : Option String) (pos : String) : Nat :=
  combo_size_final_of (ids_n lid) pos

/-- `mapping_ok = (combo_size_final == ids_n) & combo_size_final.isin([2,3])`
(line 856). -/
def mapping_ok (lid : Option String) (pos : String) : Bool :=
  (combo_size_final lid pos == ids_n lid) &&
    (combo_size_final lid pos == 2 || combo_size_final lid pos == 3)

/-- The claim's formula for `mapping_ok`, written from the spec's words
(refinement comparison definition): expected unit size determined from the
declared position alone (2 for "pair", 3 otherwise), and
`mapping_ok = (decoded count == expected) AND expected ∈ {2,3}`. -/
def spec_mapping_ok (lid : Option String) (pos : String) : Bool :=
  let expected : Nat := if pyLower pos == "pair" then 2 else 3
  (ids_n lid == expected) && (expected == 2 || expected == 3)

/-- `p1_id`/`p2_id`/`p3_id`: the i-th decoded id, or "" when absent
(lines 850-852). -/
def p_id (l : List String) (i : Nat) : String :=
  l.getD i ""

/-- Python `sorted` on the member-id strings (lexicographic ascending). -/
def sortIds (l : List String) : List String :=
  List.insertionSort (fun a b => a ≤ b) l

/-- `_combo_key_ids` applied to a row whose decoded id list is `l`
(lines 870-877): filter the three id slots down to the non-empty ones, take
`k = combo_size_final` when it is 2 or 3 (else the filtered count), and join
the sorted ids with dashes when the counts agree and k ∈ {2,3}. -/
def combo_key_ids_of (l : List String) (pos : String) : String :=
  let ids := [p_id l 0, p_id l 1, p_id l 2].filter (fun x => x != "")
  let sf := combo_size_final_of l.length pos
  let k := if sf = 2 ∨ sf = 3 then sf else ids.length
  if ids.length = k ∧ (k = 2 ∨ k = 3) then dashJoin (sortIds ids) else ""

/-- `combo_key_ids` of a row (line 877). -/
def combo_key_ids (lid : Option String) (pos : String) : String :=
  combo_key_ids_of (decode_lineid lid) pos

/-- `combo_key_team` built from a decoded id list (lines 879-883):
`team + "__" + position.lower() + "__" + combo_key_ids` when the id key is
non-empty, otherwise "". -/
def combo_key_team_of (team pos : String) (l : List String) : String :=
  if 0 < (combo_key_ids_of l pos).length then
    team ++ "__" ++ pyLower pos ++ "__" ++ combo_key_ids_of l pos
  else ""

/-- `combo_key_team` of a row (lines 879-883). -/
def combo_key_team (lid : Option String) (team pos : String) : String :=
  combo_key_team_of team pos (decode_lineid lid)

/-- Per-60 rate of the line resolver (line 889):
`np.where(TOI > 0, (c / TOI) * 60.0, np.nan)`. -/
def lines_per60 (stat toi : ℚ) : Option ℚ :=
  if 0 < toi then some (stat / toi * 60) else none

/-- Per-60 rate recomputed on the season rollup sums (line 914):
`np.where(toi2 > 0, (c / toi2) * 60.0, np.nan)`. -/
def lines_rollup_per60 (stat toi : ℚ) : Option ℚ :=
  if 0 < toi then some (stat / toi * 60) else none

/-- `wavg(x, w)` of the season rollup (lines 900-902): the TOI-weighted average
`Σ(x*w)/Σw`, NaN unless the total weight is truthy and positive. -/
def wavg (x w : List ℚ) : Option ℚ :=
  let den := w.sum
  if den ≠ 0 ∧ 0 < den then some ((List.zipWith (fun a b => a * b) x w).sum / den)
  else none

/-- Season rollup of a percentage column over the rows of one group: each row
is a (TOI, value) pair; the rollup is `wavg(values, TOI)` (lines 904-909). -/
def rollup_pct (rows : List (ℚ × ℚ)) : Option ℚ :=
  wavg (rows.map Prod.snd) (rows.map Prod.fst)

/-! ### Rolling-window gold builder (build_gold_sql, lines 1001-1053)

A partition is the list of its rows in (gamedate, gameid) order; a row is a
(TOI, stat) pair of rationals and `col` projects the aggregated column (TOI
itself or any counting stat).  `k` is the 1-based position of the current row. -/

/-- The rows of the frame `ROWS BETWEEN w-1 PRECEDING AND CURRENT ROW` at the
k-th row of a partition. -/
def frameRows {α : Type} (xs : List α) (w k : Nat) : List α :=
  ((xs.take k).reverse).take w

/-- `wsum`: the trailing-window sum `sum(col) OVER (... ROWS BETWEEN w-1
PRECEDING AND CURRENT ROW)` (lines 1003-1004). -/
def wsum (xs : List ℚ) (w k : Nat) : ℚ :=
  (frameRows xs w k).sum

/-- `wcnt`: the running game-count `count(*) OVER (... ROWS BETWEEN w-1
PRECEDING AND CURRENT ROW)` (lines 1005-1006). -/
def wcnt {α : Type} (xs : List α) (w k : Nat) : Nat :=
  (frameRows xs w k).length

/-- `wstd`: the season-to-date cumulative sum `sum(col) OVER (... ROWS BETWEEN
UNBOUNDED PRECEDING AND CURRENT ROW)` (lines 1007-1008). -/
def stdsum (xs : List ℚ) (k : Nat) : ℚ :=
  (xs.take k).sum

/-- The outer-select trailing-window sum column for window `w` (strict branch:
`CASE WHEN GP_Lw = w THEN col_Lw ELSE NULL END`, lines 1025-1029; non-strict
branch: the inner sum passed through, lines 1042-1046). -/
def gold_trailing_sum (strict : Bool) (rows : List (ℚ × ℚ)) (col : ℚ × ℚ → ℚ)
    (w k : Nat) : Option ℚ :=
  if strict then
    if wcnt rows w k = w then some (wsum (rows.map col) w k) else none
  else some (wsum (rows.map col) w k)

/-- The emitted `GP_Lw` column: `GP_Lw AS GP_Lw` in both the strict branch
(lines 1033-1034) and the non-strict branch (lines 1043-1044). -/
def gold_gp_out (strict : Bool) (rows : List (ℚ × ℚ)) (w k : Nat) : Nat :=
  match strict with
  | true => wcnt rows w k
  | false => wcnt rows w k

/-- Per-60 guard of the gold builder:
`CASE WHEN toi > 0 THEN (stat/toi)*60 ELSE NULL END` (identical expression in
both policy branches, lines 1037-1040 and 1047-1050; column references resolve
to the inner `base_cols` columns). -/
def gold_per60 (stat toi : ℚ) : Option ℚ :=
  if 0 < toi then some (stat / toi * 60) else none

/-- The per-60 column over trailing window `w`:
`CASE WHEN TOI_Lw > 0 THEN (c_Lw/TOI_Lw)*60 ELSE NULL END` where the first
component of each row is TOI. -/
def gold_per60_win (rows : List (ℚ × ℚ)) (col : ℚ × ℚ → ℚ) (w k : Nat) : Option ℚ :=
  gold_per60 (wsum (rows.map col) w k) (wsum (rows.map Prod.fst) w k)

/-- The season-to-date per-60 column:
`CASE WHEN TOI_STD > 0 THEN (c_STD/TOI_STD)*60 ELSE NULL END`. -/
def gold_per60_std (rows : List (ℚ × ℚ)) (col : ℚ × ℚ → ℚ) (k : Nat) : Option ℚ :=
  gold_per60 (stdsum (rows.map col) k) (stdsum (rows.map Prod.fst) k)

/-! ### Regular-season filter (rs_predicate_mask_from_df, lines 341-349, and
standardize_columns, lines 638-639) -/

/-- Digits 5-6 (1-indexed) of the 10-character zero-padded game id:
`gid.str.zfill(10).str[4:6]`. -/
def game_type (gameid : String) : String :=
  String.mk (((pyZfill gameid 10).toList.drop 4).take 2)

/-- Row-level regular-season mask.  `gameid = none` models an NA game id (the
NA comparison is filled to False); the outer `Option` of `playoffgame` models
presence of the column, the inner one an NA value (filled to 0). -/
def rs_mask_row (gameid : Option String) (playoffgame : Option (Option Int)) : Bool :=
  (match gameid with
   | none => false
   | some g => game_type g == "02") &&
  (match playoffgame with
   | none => true
   | some p => p.getD 0 == 0)

/-- The `RS_ONLY_IN_SILVER` configuration constant (line 52). -/
def RS_ONLY_IN_SILVER : Bool := true

/-- Python `str.startswith` on char lists. -/
def pyStartsWith (s pre : String) : Bool :=
  pre.toList.isPrefixOf s.toList

/-- Whether `standardize_columns` keeps a row (lines 638-639): the RS mask is
applied exactly when RS-only is on, the dataset key starts with "gbg_", and a
gameid column is present. -/
def silver_rs_keep (dataset_key : String) (hasGameidCol : Bool)
    (gameid : Option String) (p : Option (Option Int)) : Bool :=
  if RS_ONLY_IN_SILVER && pyStartsWith dataset_key "gbg_" && hasGameidCol then
    rs_mask_row gameid p
  else true


/-! ### Helper lemmas -/

theorem lookup_mem {α β : Type} [BEq α] [LawfulBEq α] {l : List (α × β)} {a : α} {b : β}
    (h : l.lookup a = some b) : ∃ p ∈ l, p.2 = b := by
  induction l with
  | nil => simp [List.lookup] at h
  | cons p t ih =>
    rcases p with ⟨k, v⟩
    by_cases hk : (a == k) = true
    · simp [List.lookup, hk] at h
      exact ⟨(k, v), by simp, h⟩
    · simp [List.lookup, hk] at h
      rcases ih h with ⟨q, hq, hq2⟩
      exact ⟨q, by simp [hq], hq2⟩

theorem ids_n_le_three (lid : Option String) : ids_n lid ≤ 3 := by
  unfold ids_n decode_lineid
  cases lid with
  | none => simp
  | some s => simp

theorem mapping_ok_iff_ids (lid : Option String) (pos : String) :
    mapping_ok lid pos = true ↔ (ids_n lid = 2 ∨ ids_n lid = 3) := by
  have h3 : ids_n lid ≤ 3 := ids_n_le_three lid
  by_cases h2 : ids_n lid = 2
  · simp [mapping_ok, combo_size_final, combo_size_final_of, h2]
  by_cases h3' : ids_n lid = 3
  · simp [mapping_ok, combo_size_final, combo_size_final_of, h3']
  · have h01 : ids_n lid = 0 ∨ ids_n lid = 1 := by omega
    rcases h01 with h | h <;>
      cases hp : (pyLower pos == "pair") <;>
        simp [mapping_ok, combo_size_final, combo_size_final_of, combo_size_label, h, hp]

theorem findIdsAux_ne_empty (l : List Char) :
    ∀ (skip : Nat) (s : String), s ∈ findIdsAux skip l → s ≠ "" := by
  induction l with
  | nil => intro skip s hs; simp [findIdsAux] at hs
  | cons c rest ih =>
    intro skip s hs
    match skip with
    | sk + 1 => exact ih sk s hs
    | 0 =>
      rw [findIdsAux] at hs
      split at hs
      · rcases List.mem_cons.mp hs with h | h
        · subst h
          intro hcon
          have h2 := congrArg String.toList hcon
          simp at h2
        · exact ih 6 s h
      · exact ih 0 s hs

theorem pyDedupAux_subset (l : List String) :
    ∀ (seen : List String) (s : String), s ∈ pyDedupAux seen l → s ∈ l := by
  induction l with
  | nil => intro seen s hs; simp [pyDedupAux] at hs
  | cons x xs ih =>
    intro seen s hs
    rw [pyDedupAux] at hs
    split at hs
    · exact List.mem_cons_of_mem x (ih seen s hs)
    · rcases List.mem_cons.mp hs with h | h
      · exact h ▸ List.mem_cons_self x xs
      · exact List.mem_cons_of_mem x (ih (x :: seen) s h)

theorem decode_lineid_ne_empty (lid : Option String) :
    ∀ s ∈ decode_lineid lid, s ≠ "" := by
  intro s hs
  unfold decode_lineid at hs
  cases lid with
  | none => simp at hs
  | some v =>
    have h1 : s ∈ pyDedup (findIds (stripDot0 v.toList)) := List.mem_of_mem_take hs
    have h2 : s ∈ findIds (stripDot0 v.toList) := pyDedupAux_subset _ [] s h1
    exact findIdsAux_ne_empty _ 0 s h2

theorem sortIds_perm (l : List String) : (sortIds l).Perm l :=
  List.perm_insertionSort _ l

theorem sortIds_eq_of_perm {l1 l2 : List String} (h : l1.Perm l2) :
    sortIds l1 = sortIds l2 :=
  List.eq_of_perm_of_sorted
    ((List.perm_insertionSort _ l1).trans (h.trans (List.perm_insertionSort _ l2).symm))
    (List.sorted_insertionSort _ l1) (List.sorted_insertionSort _ l2)

theorem filter_p_ids (l : List String) (hlen : l.length ≤ 3)
    (h : ∀ x ∈ l, x ≠ "") :
    [p_id l 0, p_id l 1, p_id l 2].filter (fun x => x != "") = l := by
  match l with
  | [] => rfl
  | [a] =>
    have ha : (a != "") = true := bne_iff_ne.mpr (h a (by simp))
    simp [p_id, List.filter, ha]
  | [a, b] =>
    have ha : (a != "") = true := bne_iff_ne.mpr (h a (by simp))
    have hb : (b != "") = true := bne_iff_ne.mpr (h b (by simp))
    simp [p_id, List.filter, ha, hb]
  | [a, b, c] =>
    have ha : (a != "") = true := bne_iff_ne.mpr (h a (by simp))
    have hb : (b != "") = true := bne_iff_ne.mpr (h b (by simp))
    have hc : (c != "") = true := bne_iff_ne.mpr (h c (by simp))
    simp [p_id, List.filter, ha, hb, hc]
  | a :: b :: c :: d :: t => simp at hlen

theorem string_ne_empty_of_length {s : String} (h : 0 < s.length) : s ≠ "" := by
  intro hcon
  rw [hcon] at h
  simp at h

theorem dashJoin_length_pos (l : List String) (hl : 2 ≤ l.length) :
    0 < (dashJoin l).length := by
  match l with
  | a :: b :: t =>
    have : dashJoin (a :: b :: t) = a ++ "-" ++ dashJoin (b :: t) := rfl
    have hlen2 : (a ++ "-" ++ dashJoin (b :: t)).length
        = a.length + 1 + (dashJoin (b :: t)).length := by
      simp [String.length_append]
      rfl
    rw [this, hlen2]
    omega
  | [] => simp at hl
  | [a] => simp at hl

theorem combo_key_ids_of_eq (l : List String) (pos : String)
    (hne : ∀ x ∈ l, x ≠ "") (hlen : l.length = 2 ∨ l.length = 3) :
    combo_key_ids_of l pos = dashJoin (sortIds l) := by
  have h3 : l.length ≤ 3 := by omega
  have hf : [p_id l 0, p_id l 1, p_id l 2].filter (fun x => x != "") = l :=
    filter_p_ids l h3 hne
  have hsf : combo_size_final_of l.length pos = l.length := by
    unfold combo_size_final_of
    rcases hlen with h | h <;> simp [h]
  unfold combo_key_ids_of
  rw [hf, hsf]
  rcases hlen with h | h <;> simp [h]

theorem string_length_pos_of_ne {s : String} (h : s ≠ "") : 0 < s.length := by
  rcases s with ⟨data⟩
  cases data with
  | nil => exact absurd rfl h
  | cons c t => exact Nat.succ_pos t.length

theorem combo_key_ids_ne_of_ok (lid : Option String) (pos : String)
    (h : mapping_ok lid pos = true) : combo_key_ids lid pos ≠ "" := by
  have hlen : ids_n lid = 2 ∨ ids_n lid = 3 := (mapping_ok_iff_ids lid pos).mp h
  have hne := decode_lineid_ne_empty lid
  have heq : combo_key_ids lid pos = dashJoin (sortIds (decode_lineid lid)) :=
    combo_key_ids_of_eq _ pos hne hlen
  rw [heq]
  apply string_ne_empty_of_length
  apply dashJoin_length_pos
  have := (sortIds_perm (decode_lineid lid)).length_eq
  unfold ids_n at hlen
  omega

theorem combo_key_team_ne_of_ok (lid : Option String) (team pos : String)
    (h : mapping_ok lid pos = true) : combo_key_team lid team pos ≠ "" := by
  have hkid : combo_key_ids lid pos ≠ "" := combo_key_ids_ne_of_ok lid pos h
  have hpos : 0 < (combo_key_ids_of (decode_lineid lid) pos).length :=
    string_length_pos_of_ne hkid
  unfold combo_key_team combo_key_team_of
  rw [if_pos hpos]
  apply string_ne_empty_of_length
  simp [String.length_append]
  exact Or.inr hpos

/-- C1 (counterexample): a row with declared position "line" (expected unit
size 3 per the claim) whose lineid decodes to exactly 2 member ids is marked
mapping_ok by the code, while the claim's formula rejects it. -/
theorem C1_counterexample :
    mapping_ok (some "80000018000002") "line" = true ∧
    spec_mapping_ok (some "80000018000002") "line" = false := by
  exact ⟨by decide, by decide⟩

/-- C1 (amended): mapping_ok is true exactly when the number of member ids
decoded from the composite lineid is 2 or 3 — the expected unit size is the
decoded count itself whenever that count is 2 or 3, and only falls back to the
position-derived size (2 for "pair", 3 otherwise) when it is not. -/
theorem C1_amended (lid : Option String) (pos : String) :
    mapping_ok lid pos = (ids_n lid == 2 || ids_n lid == 3) := by
  rcases h : mapping_ok lid pos with _ | _
  · have := (mapping_ok_iff_ids lid pos)
    rw [h] at this
    have h2 : ¬ (ids_n lid = 2 ∨ ids_n lid = 3) := by
      intro hc
      exact absurd (this.mpr hc) (by simp)
    push_neg at h2
    simp [h2.1, h2.2]
  · have := (mapping_ok_iff_ids lid pos).mp h
    rcases this with h' | h' <;> simp [h']

/-- C5: two line-game rows whose decoded member-id lists are permutations of
the same 2 or 3 ids, with the same team and unit-type, get identical
combo_key_ids and combo_key_team. -/
theorem C5_combo_key_symmetry (l1 l2 : List String) (team pos : String)
    (hperm : l1.Perm l2) (hne : ∀ x ∈ l1, x ≠ "")
    (hlen : l1.length = 2 ∨ l1.length = 3) :
    combo_key_ids_of l1 pos = combo_key_ids_of l2 pos ∧
    combo_key_team_of team pos l1 = combo_key_team_of team pos l2 := by
  have hne2 : ∀ x ∈ l2, x ≠ "" := fun x hx => hne x (hperm.mem_iff.mpr hx)
  have hlen2 : l2.length = 2 ∨ l2.length = 3 := by
    rcases hlen with h | h <;> [left; right] <;> rw [← hperm.length_eq, h]
  have hkey : combo_key_ids_of l1 pos = combo_key_ids_of l2 pos := by
    rw [combo_key_ids_of_eq l1 pos hne hlen, combo_key_ids_of_eq l2 pos hne2 hlen2,
      sortIds_eq_of_perm hperm]
  refine ⟨hkey, ?_⟩
  unfold combo_key_team_of
  rw [hkey]

/-- C5 witness: the concrete pair ["8470001", "8470002"] against its
transposition, same team and unit-type. -/
theorem C5_witness :
    combo_key_ids_of ["8470001", "8470002"] "pair" =
      combo_key_ids_of ["8470002", "8470001"] "pair" ∧
    combo_key_team_of "BOS" "pair" ["8470001", "8470002"] =
      combo_key_team_of "BOS" "pair" ["8470002", "8470001"] :=
  C5_combo_key_symmetry ["8470001", "8470002"] ["8470002", "8470001"] "BOS" "pair"
    (by decide) (by decide) (by decide)

/-- C10: a mapping_ok row has a non-empty combo_key_ids and a non-empty
combo_key_team, so filtering on mapping_ok alone selects the same rows as
filtering on mapping_ok together with a non-empty combo_key_team. -/
theorem C10_nonempty_key (lid : Option String) (team pos : String) :
    (mapping_ok lid pos = true →
      combo_key_ids lid pos ≠ "" ∧ combo_key_team lid team pos ≠ "") ∧
    ((mapping_ok lid pos = true ∧ combo_key_team lid team pos ≠ "") ↔
      mapping_ok lid pos = true) := by
  constructor
  · intro h
    exact ⟨combo_key_ids_ne_of_ok lid pos h, combo_key_team_ne_of_ok lid team pos h⟩
  · constructor
    · exact fun h => h.1
    · exact fun h => ⟨h, combo_key_team_ne_of_ok lid team pos h⟩

/-- C10 witness: a concrete mapped pair row. -/
theorem C10_witness :
    combo_key_ids (some "80000018000002") "line" ≠ "" ∧
    combo_key_team (some "80000018000002") "BOS" "line" ≠ "" :=
  (C10_nonempty_key (some "80000018000002") "BOS" "line").1 (by decide)

/-- C3: at the k-th row (1-based) of a partition, the running game-count for
window size w ∈ {5,10,20} equals min(w, k). -/
theorem C3_window_count (rows : List (ℚ × ℚ)) (w k : Nat)
    (_hw : w = 5 ∨ w = 10 ∨ w = 20) (_hk1 : 1 ≤ k) (hk2 : k ≤ rows.length) :
    wcnt rows w k = min w k := by
  unfold wcnt frameRows
  simp [List.length_take]
  omega

/-- C3 witness: third row of a 4-row partition, window 5. -/
theorem C3_witness :
    wcnt [((1 : ℚ), (0 : ℚ)), (1, 0), (1, 0), (1, 0)] 5 3 = min 5 3 :=
  C3_window_count [(1, 0), (1, 0), (1, 0), (1, 0)] 5 3 (by omega) (by omega) (by decide)

/-- C2: under the strict policy a trailing-window sum is null exactly on
incomplete windows (in particular whenever the running game-count is below the
window size); under the non-strict policy it is never nulled; and the GP_Lw
running game-count columns are emitted without suppression in both policies. -/
theorem C2_window_policy (rows : List (ℚ × ℚ)) (col : ℚ × ℚ → ℚ) (w k : Nat)
    (_hw : w = 5 ∨ w = 10 ∨ w = 20) (_hk1 : 1 ≤ k) (_hk2 : k ≤ rows.length) :
    (wcnt rows w k < w → gold_trailing_sum true rows col w k = none) ∧
    (wcnt rows w k = w →
      gold_trailing_sum true rows col w k = some (wsum (rows.map col) w k)) ∧
    gold_trailing_sum false rows col w k = some (wsum (rows.map col) w k) ∧
    gold_gp_out true rows w k = wcnt rows w k ∧
    gold_gp_out false rows w k = wcnt rows w k := by
  refine ⟨?_, ?_, rfl, rfl, rfl⟩
  · intro h
    simp [gold_trailing_sum, Nat.ne_of_lt h]
  · intro h
    simp [gold_trailing_sum, h]

/-- C2 witness: a 3-row partition at its last row, window 5 (incomplete:
strict output null, non-strict output the 3-row sum, GP = 3). -/
theorem C2_witness :
    gold_trailing_sum true [((1 : ℚ), (2 : ℚ)), (1, 4), (1, 6)] Prod.snd 5 3 = none ∧
    gold_trailing_sum false [((1 : ℚ), (2 : ℚ)), (1, 4), (1, 6)] Prod.snd 5 3 =
      some (wsum ([((1 : ℚ), (2 : ℚ)), (1, 4), (1, 6)].map Prod.snd) 5 3) := by
  constructor
  · exact (C2_window_policy [(1, 2), (1, 4), (1, 6)] Prod.snd 5 3 (by omega) (by omega)
      (by decide)).1 (by decide)
  · exact (C2_window_policy [(1, 2), (1, 4), (1, 6)] Prod.snd 5 3 (by omega) (by omega)
      (by decide)).2.2.1

/-- C6: every per-60 rate — current row, trailing windows, season-to-date, in
the gold builder and in the line resolver (game level and season rollup) — is
null when its TOI denominator is ≤ 0 and equals (stat/TOI)*60 otherwise. -/
theorem C6_per60_guard (stat toi : ℚ) (rows : List (ℚ × ℚ)) (col : ℚ × ℚ → ℚ)
    (w k : Nat) :
    (toi ≤ 0 → gold_per60 stat toi = none) ∧
    (0 < toi → gold_per60 stat toi = some (stat / toi * 60)) ∧
    (wsum (rows.map Prod.fst) w k ≤ 0 → gold_per60_win rows col w k = none) ∧
    (0 < wsum (rows.map Prod.fst) w k →
      gold_per60_win rows col w k =
        some (wsum (rows.map col) w k / wsum (rows.map Prod.fst) w k * 60)) ∧
    (stdsum (rows.map Prod.fst) k ≤ 0 → gold_per60_std rows col k = none) ∧
    (0 < stdsum (rows.map Prod.fst) k →
      gold_per60_std rows col k =
        some (stdsum (rows.map col) k / stdsum (rows.map Prod.fst) k * 60)) ∧
    (toi ≤ 0 → lines_per60 stat toi = none) ∧
    (0 < toi → lines_per60 stat toi = some (stat / toi * 60)) ∧
    (toi ≤ 0 → lines_rollup_per60 stat toi = none) ∧
    (0 < toi → lines_rollup_per60 stat toi = some (stat / toi * 60)) := by
  refine ⟨?_, ?_, ?_, ?_, ?_, ?_, ?_, ?_, ?_, ?_⟩ <;> intro h <;>
    simp [gold_per60, gold_per60_win, gold_per60_std, lines_per60,
      lines_rollup_per60, h]

/-- C6 witness: zero and negative denominators yield null; a positive
denominator yields the rate. -/
theorem C6_witness :
    gold_per60 1 0 = none ∧
    gold_per60 4 2 = some (4 / 2 * 60) ∧
    lines_per60 1 (-3) = none ∧
    lines_rollup_per60 3 (-1) = none := by
  refine ⟨?_, ?_, ?_, ?_⟩
  · exact (C6_per60_guard 1 0 [] Prod.fst 5 1).1 (by norm_num)
  · exact (C6_per60_guard 4 2 [] Prod.fst 5 1).2.1 (by norm_num)
  · exact (C6_per60_guard 1 (-3) [] Prod.fst 5 1).2.2.2.2.2.2.1 (by norm_num)
  · exact (C6_per60_guard 3 (-1) [] Prod.fst 5 1).2.2.2.2.2.2.2.2.1 (by norm_num)

/-- C4 (counterexample): for TOI-weights {10,20,30} and expected-goal-share
values {0.40, 0.50, 0.60}, the rollup is (10*0.40+20*0.50+30*0.60)/60 = 32/60,
which is not the 0.5167 the claim asserts. -/
theorem C4_counterexample :
    rollup_pct [(10, 2/5), (20, 1/2), (30, 3/5)] = some (8/15) ∧
    ((8 : ℚ)/15) ≠ 5167/10000 := by
  constructor
  · simp [rollup_pct, wavg]
    norm_num
  · norm_num

/-- C4 (amended): the season rollup's expected-goal-share for those three rows
equals (10*0.40+20*0.50+30*0.60)/60 = 32/60 = 8/15 ≈ 0.5333 (not 0.5167). -/
theorem C4_amended :
    rollup_pct [(10, 2/5), (20, 1/2), (30, 3/5)] =
      some ((10 * (2/5) + 20 * (1/2) + 30 * (3/5)) / 60) ∧
    ((10 * (2/5) + 20 * (1/2) + 30 * (3/5)) / 60 : ℚ) = 8/15 := by
  constructor
  · simp [rollup_pct, wavg]
    norm_num
  · norm_num

/-- C7: for a gbg (per-game) dataset with a gameid column, the silver filter
keeps a row exactly per the RS mask: rows whose padded game id has digits 5-6
equal to "03" are excluded, and a row passes only when those digits are "02"
and, when a playoffgame column is present, its value (NA filled to 0)
equals 0. -/
theorem C7_rs_filter (key g : String) (p : Option (Option Int))
    (hkey : pyStartsWith key "gbg_" = true) :
    (silver_rs_keep key true (some g) p = rs_mask_row (some g) p) ∧
    (game_type g = "03" → silver_rs_keep key true (some g) p = false) ∧
    (rs_mask_row (some g) none = (game_type g == "02")) ∧
    (∀ q : Option Int,
      rs_mask_row (some g) (some q) = ((game_type g == "02") && (q.getD 0 == 0))) := by
  have happ : silver_rs_keep key true (some g) p = rs_mask_row (some g) p := by
    simp [silver_rs_keep, RS_ONLY_IN_SILVER, hkey]
  refine ⟨happ, ?_, by simp [rs_mask_row], fun q => rfl⟩
  intro h03
  rw [happ]
  have : (game_type g == "02") = false := by
    rw [h03]
    decide
  simp [rs_mask_row, this]

/-- C7 witness: a playoff game id (digits 5-6 = "03") in a gbg dataset is
dropped. -/
theorem C7_witness :
    silver_rs_keep "gbg_lines_hist_zip" true (some "2023030111") none = false :=
  (C7_rs_filter "gbg_lines_hist_zip" "2023030111" none (by decide)).2.1 (by decide)

theorem upperTable_snd_no_lookup : ∀ p ∈ upperTable, upperTable.lookup p.2 = none := by
  decide

theorem upperTable_snd_not_space : ∀ p ∈ upperTable, isPySpace p.2 = false := by
  decide

theorem pyUpperChar_idem (c : Char) : pyUpperChar (pyUpperChar c) = pyUpperChar c := by
  cases h : upperTable.lookup c with
  | none => simp [pyUpperChar, h]
  | some u =>
    obtain ⟨p, hp, hpu⟩ := lookup_mem h
    have hu : upperTable.lookup u = none := hpu ▸ upperTable_snd_no_lookup p hp
    simp [pyUpperChar, h, hu]

theorem pySpace_pyUpperChar {c : Char} (h : isPySpace (pyUpperChar c) = true) :
    isPySpace c = true := by
  cases hl : upperTable.lookup c with
  | none => simpa [pyUpperChar, hl] using h
  | some u =>
    obtain ⟨p, hp, hpu⟩ := lookup_mem hl
    have hu : isPySpace u = false := hpu ▸ upperTable_snd_not_space p hp
    rw [pyUpperChar, hl] at h
    simp at h
    rw [h] at hu
    simp at hu

theorem dropWhile_eq_self {α : Type} {p : α → Bool} {l : List α}
    (h : ∀ c ∈ l, p c = false) : l.dropWhile p = l := by
  cases l with
  | nil => rfl
  | cons a t => simp [List.dropWhile_cons, h a (by simp)]

theorem map_eq_self {α : Type} {f : α → α} {l : List α} (h : ∀ c ∈ l, f c = c) :
    l.map f = l := by
  induction l with
  | nil => rfl
  | cons a t ih =>
    simp only [List.map_cons, h a (by simp)]
    rw [ih (fun c hc => h c (by simp [hc]))]

theorem filter_eq_self' {α : Type} {p : α → Bool} {l : List α}
    (h : ∀ c ∈ l, p c = true) : l.filter p = l :=
  List.filter_eq_self.mpr h

theorem mem_pyStrip {c : Char} {l : List Char} (h : c ∈ pyStrip l) : c ∈ l := by
  unfold pyStrip at h
  rw [List.mem_reverse] at h
  have h1 := (List.dropWhile_sublist isPySpace).subset h
  rw [List.mem_reverse] at h1
  exact (List.dropWhile_sublist isPySpace).subset h1

theorem canonNorm_mem {s : String} {c : Char} (hc : c ∈ (canonNorm s).toList) :
    (c != '.') = true ∧ (c != ' ') = true ∧ ∃ c0 ∈ s.toList, c = pyUpperChar c0 := by
  unfold canonNorm at hc
  simp only [String.toList] at hc
  have hc' : c ∈ ((pyStrip s.toList).map pyUpperChar).filter (fun c => c != '.') ∧
      (c != ' ') = true := List.mem_filter.mp hc
  have hc'' : c ∈ (pyStrip s.toList).map pyUpperChar ∧ (c != '.') = true :=
    List.mem_filter.mp hc'.1
  obtain ⟨c0, hc0, hceq⟩ := List.mem_map.mp hc''.1
  exact ⟨hc''.2, hc'.2, c0, mem_pyStrip hc0, hceq.symm⟩

theorem canonNorm_eq_self {t : String}
    (h : ∀ c ∈ t.toList, isPySpace c = false ∧ (c != '.') = true ∧
      (c != ' ') = true ∧ pyUpperChar c = c) :
    canonNorm t = t := by
  unfold canonNorm pyStrip
  have h1 : t.toList.dropWhile isPySpace = t.toList :=
    dropWhile_eq_self (fun c hc => (h c hc).1)
  rw [h1]
  have h2 : t.toList.reverse.dropWhile isPySpace = t.toList.reverse :=
    dropWhile_eq_self (fun c hc => (h c (List.mem_reverse.mp hc)).1)
  rw [h2, List.reverse_reverse]
  have h3 : t.toList.map pyUpperChar = t.toList :=
    map_eq_self (fun c hc => (h c hc).2.2.2)
  rw [h3]
  have h4 : t.toList.filter (fun c => c != '.') = t.toList :=
    filter_eq_self' (fun c hc => (h c hc).2.1)
  rw [h4]
  have h5 : t.toList.filter (fun c => c != ' ') = t.toList :=
    filter_eq_self' (fun c hc => (h c hc).2.2.1)
  rw [h5]
  rcases t with ⟨data⟩
  rfl

theorem canonNorm_fixed {s : String} (hs : ∀ c ∈ s.toList, isPySpace c → c = ' ') :
    canonNorm (canonNorm s) = canonNorm s := by
  apply canonNorm_eq_self
  intro c hc
  obtain ⟨hdot, hsp, c0, hc0, hceq⟩ := canonNorm_mem hc
  have hidem : pyUpperChar c = c := by
    rw [hceq]
    exact pyUpperChar_idem c0
  have hnospace : isPySpace c = false := by
    cases hps : isPySpace c with
    | false => rfl
    | true =>
      have hps0 : isPySpace c0 = true := pySpace_pyUpperChar (hceq ▸ hps)
      cases hl : upperTable.lookup c0 with
      | some u =>
        obtain ⟨p, hp, hpu⟩ := lookup_mem hl
        have : isPySpace u = false := hpu ▸ upperTable_snd_not_space p hp
        rw [hceq, pyUpperChar, hl] at hps
        simp at hps
        rw [hps] at this
        rw [this] at hps
        simp_all
      | none =>
        have hcc0 : c = c0 := by rw [hceq, pyUpperChar, hl]; rfl
        have : c0 = ' ' := hs c0 hc0 hps0
        rw [hcc0, this] at hsp
        simp at hsp
  exact ⟨hnospace, hdot, hsp, hidem⟩

theorem team_map_canon : ∀ p ∈ TEAM_MAP, canon_team (some p.2) = some p.2 := by
  decide

theorem team_map_len3 : ∀ p ∈ TEAM_MAP, p.2.length = 3 := by
  decide

/-- C8 (counterexample): canonicalization is not idempotent for all inputs —
for ".\tTBL" the first pass removes the period and leaves a leading tab
(returning "\tTBL"), while the second pass strips the tab and resolves to
"TBL". -/
theorem C8_counterexample :
    canon_team (canon_team (some ".\tTBL")) ≠ canon_team (some ".\tTBL") := by
  decide

/-- C8 (amended): canonicalize_team is idempotent for every input whose
whitespace characters are all plain spaces (in particular every input without
tabs/newlines); the counterexample shows that an interior tab exposed at the
boundary by punctuation removal breaks idempotence. -/
theorem C8_amended (s : String) (h : ∀ c ∈ s.toList, isPySpace c → c = ' ') :
    canon_team (canon_team (some s)) = canon_team (some s) := by
  have hfix : canonNorm (canonNorm s) = canonNorm s := canonNorm_fixed h
  cases hl : TEAM_MAP.lookup (canonNorm s) with
  | none =>
    simp only [canon_team, hl, Option.getD_none]
    rw [hfix, hl]
    rfl
  | some v =>
    have h1 : canon_team (some s) = some v := by
      simp [canon_team, hl]
    rw [h1]
    obtain ⟨p, hp, hpv⟩ := lookup_mem hl
    exact hpv ▸ team_map_canon p hp

/-- C8 witness: a concrete space-free alias. -/
theorem C8_witness :
    canon_team (canon_team (some "T.B")) = canon_team (some "T.B") :=
  C8_amended "T.B" (by decide)

/-- C9 (counterexample): canonicalize_team does not return a string for every
input — an NA input is passed back unchanged (modelled: none in, none out). -/
theorem C9_counterexample :
    canon_team none = none ∧ (canon_team none).isSome = false :=
  ⟨rfl, rfl⟩

/-- C9 (amended): canonicalize_team never raises and returns a string for
every non-null input: a recognized normalized abbreviation maps to its fixed
3-letter code from the static alias table, an unrecognized one passes through
normalized (uppercased, whitespace-trimmed, periods and spaces removed); a
null input is returned as null. -/
theorem C9_amended (s : String) :
    (canon_team (some s)).isSome = true ∧
    canon_team none = none ∧
    (∀ t, TEAM_MAP.lookup (canonNorm s) = some t →
      canon_team (some s) = some t ∧ t.length = 3) ∧
    (TEAM_MAP.lookup (canonNorm s) = none →
      canon_team (some s) = some (canonNorm s)) := by
  refine ⟨by simp [canon_team], rfl, ?_, ?_⟩
  · intro t ht
    obtain ⟨p, hp, hpt⟩ := lookup_mem ht
    exact ⟨by simp [canon_team, ht], hpt ▸ team_map_len3 p hp⟩
  · intro ht
    simp [canon_team, ht]

/-- C9 witness: "T.B" is recognized and maps to the 3-letter code "TBL". -/
theorem C9_witness :
    canon_team (some "T.B") = some "TBL" ∧ ("TBL" : String).length = 3 :=
  (C9_amended "T.B").2.2.1 "TBL" (by decide)

end NHLPipeline
